import Mathlib

/-!
Verification development for the go-photoslibrary client.

The repository's core is a paginated streaming fetch protocol: `albums.List`,
`mediaitems.List` and `mediaitems.Search` each spawn a background goroutine
that repeatedly calls a single-page fetcher (`list` / `search`), republishes
the decoded items one at a time on an unbuffered item channel, forwards a
fetch error on an unbuffered error channel, and terminates on exhaustion
(empty `nextPageToken`), error, or context cancellation.

The three pagination loops are textually identical up to the item type, so the
driver is embedded once, generically in the item type `α`:

* the transport plus single-page fetcher is a function
  `String → Except String (Page α)` from the current page token to either an
  error or a decoded page (the Go `error` payload is modelled as `String`);
* the context's cancellation signal is modelled by an optional poll index
  `cancelAt`: the goroutine polls `ctx.Done()` once at the top of each loop
  iteration and once per item (the `select` around each channel send), and
  `cancelAt = some c` means the signal is observed from the `c`-th poll on
  (once signalled it stays signalled);
* channel interactions are recorded as an event trace: a page fetch, a
  completed item send, a completed error send, and the closing of either
  channel.  Sends on the unbuffered channels are recorded at the point the
  hand-off completes, which is where the Go `select` / blocking send returns.
* the loop itself need not terminate (the server controls the tokens), so the
  embedding is fuel-indexed; `Terminal.outOfFuel` marks a run that was still
  going when the fuel ran out.
-/

/-- Terminal status of a (fuel-bounded) run of the pagination goroutine. -/
inductive Terminal where
  | done
  | failed
  | cancelled
  | outOfFuel
deriving Repr, DecidableEq

/-- Observable channel events of one pagination run.  `closeErr` is in the
vocabulary so that "the error channel is never closed" is expressible; no rule
of the embedded driver emits it, mirroring the absence of `close(errCh)` in
the source. -/
inductive Event (α : Type u) where
  | fetchPage (token : String)
  | emit (x : α)
  | errSend
  | closeItems
  | closeErr
deriving Repr, DecidableEq

/-- One decoded page: the ordered item batch plus the `nextPageToken` field
(empty string is the end-of-results sentinel).  This is the common shape of
`ListAlbumsResponse`, `ListMediaItemsResponse` and `SearchMediaItemResponse`. -/
structure Page (α : Type u) where
  items : List α
  nextPageToken : String
deriving Repr, DecidableEq

/-- Whether the `select` on `ctx.Done()` at poll index `polls` observes the
cancellation signal. -/
def ctxDone (cancelAt : Option Nat) (polls : Nat) : Bool :=
  match cancelAt with
  | none => false
  | some c => c ≤ polls

/-- The per-page emission loop (`for _, item := range resp.Items { select ... }`):
before each item send the goroutine polls `ctx.Done()`; on cancellation it
stops emitting immediately.  Returns the events, the next poll index, and
whether cancellation was observed. -/
def emitItems (cancelAt : Option Nat) : Nat → List α → List (Event α) × Nat × Bool
  | polls, [] => ([], polls, false)
  | polls, x :: xs =>
    if ctxDone cancelAt polls then
      ([], polls, true)
    else
      match emitItems cancelAt (polls + 1) xs with
      | (evs, polls2, c) => (Event.emit x :: evs, polls2, c)

/-- The pagination goroutine body (`for { ... }` in `albums.List`,
`mediaitems.List`, `mediaitems.Search`), fuel-indexed.  Each iteration:
poll `ctx.Done()`; fetch the current page; on fetch error send it on the
error channel and return; otherwise emit the items (each send racing against
cancellation); return if `nextPageToken` is empty; else copy the token into
the request and loop. -/
def driveLoop (fetch : String → Except String (Page α)) (cancelAt : Option Nat) :
    Nat → String → Nat → List (Event α) × Terminal
  | 0, _, _ => ([], Terminal.outOfFuel)
  | fuel + 1, tok, polls =>
    if ctxDone cancelAt polls then
      ([], Terminal.cancelled)
    else
      match fetch tok with
      | .error _ => ([Event.fetchPage tok, Event.errSend], Terminal.failed)
      | .ok page =>
        match emitItems cancelAt (polls + 1) page.items with
        | (evs, _, true) => (Event.fetchPage tok :: evs, Terminal.cancelled)
        | (evs, polls2, false) =>
          if page.nextPageToken = "" then
            (Event.fetchPage tok :: evs, Terminal.done)
          else
            (Event.fetchPage tok :: evs ++ (driveLoop fetch cancelAt fuel page.nextPageToken polls2).1,
             (driveLoop fetch cancelAt fuel page.nextPageToken polls2).2)

/-- A whole pagination run.  The `defer close(itemCh)` runs exactly when the
goroutine returns, i.e. in every terminal state but not when the fuel runs
out mid-loop. -/
def drive (fetch : String → Except String (Page α)) (cancelAt : Option Nat)
    (fuel : Nat) (tok : String) : List (Event α) × Terminal :=
  match driveLoop fetch cancelAt fuel tok 0 with
  | (evs, Terminal.outOfFuel) => (evs, Terminal.outOfFuel)
  | (evs, t) => (evs ++ [Event.closeItems], t)

/-- Items delivered on the item channel, in delivery order. -/
def emittedItems (l : List (Event α)) : List α :=
  l.filterMap fun e =>
    match e with
    | Event.emit x => some x
    | _ => none

/-- Recognizer for error-channel sends. -/
def isErrSend : Event α → Bool
  | Event.errSend => true
  | _ => false

/-- Recognizer for page fetches. -/
def isFetch : Event α → Bool
  | Event.fetchPage _ => true
  | _ => false

/-- Number of completed error-channel sends in a trace. -/
def countErrSends (l : List (Event α)) : Nat := (l.filter isErrSend).length

/-- Number of page fetches issued in a trace. -/
def countFetches (l : List (Event α)) : Nat := (l.filter isFetch).length

/-- The trace of fetching and fully emitting the given pages in order,
starting from page token `tok` and following each page's `nextPageToken`. -/
def chainTrace : String → List (Page α) → List (Event α)
  | _, [] => []
  | tok, p :: rest =>
    Event.fetchPage tok :: p.items.map Event.emit ++ chainTrace p.nextPageToken rest

/-- The token the driver uses for the fetch that follows the given pages. -/
def nextTok (tok : String) : List (Page α) → String
  | [] => tok
  | p :: rest => nextTok p.nextPageToken rest

/-- Number of `ctx.Done()` polls consumed while fetching and fully emitting
the given pages: one per loop iteration plus one per item. -/
def pollCount : List (Page α) → Nat
  | [] => 0
  | p :: rest => 1 + p.items.length + pollCount rest

/-- The transport serves the given pages in order from token `tok`: each
fetch succeeds and each of these pages carries a non-empty `nextPageToken`
(they are the pages strictly before whatever the driver meets next). -/
def servesPages (fetch : String → Except String (Page α)) : String → List (Page α) → Prop
  | _, [] => True
  | tok, p :: rest =>
    fetch tok = .ok p ∧ p.nextPageToken ≠ "" ∧ servesPages fetch p.nextPageToken rest

/-- No poll index below `bound` observes the cancellation signal. -/
def noCancelBelow (cancelAt : Option Nat) (bound : Nat) : Prop :=
  ∀ p, ctxDone cancelAt p = true → bound ≤ p

/-- Whether an `Except` is a success. -/
def isOk : Except ε σ → Bool
  | .ok _ => true
  | .error _ => false

/-- Whether an `Except` is an error. -/
def isError : Except ε σ → Bool
  | .ok _ => false
  | .error _ => true

/-- Whether a fetch result is a successful page whose `nextPageToken` is
non-empty (the shape that keeps the pagination loop going). -/
def okNonEmpty : Except String (Page α) → Bool
  | .ok p => decide (p.nextPageToken ≠ "")
  | .error _ => false

/-- Convenience name for a pagination run's output. -/
abbrev DriverOutput (α : Type u) := List (Event α) × Terminal

/-- An album record (package `albums`). -/
structure Album where
  ID : String
  Title : String
  ProductURL : String
  IsWriteable : Bool
  MediaItemsCount : String
  CoverPhotoBaseURL : String
  CoverPhotoMediaItemID : String
deriving Repr, DecidableEq

namespace albums

/-- The albums pagination entry point, an instance of the generic driver at
item type `Album`. -/
def List (fetch : String → Except String (Page Album)) (cancelAt : Option Nat)
    (fuel : Nat) (pageToken : String) : DriverOutput Album :=
  drive fetch cancelAt fuel pageToken

end albums

/-- A media item record (package `mediaitems`); the nested metadata structs
are opaque to the driver and are not needed by any claim, so they are kept as
their identifying string fields. -/
structure MediaItem where
  ID : String
  Description : String
  ProductURL : String
  BaseURL : String
  MimeType : String
  Filename : String
deriving Repr, DecidableEq

namespace mediaitems

/-- The media-items list pagination entry point. -/
def List (fetch : String → Except String (Page MediaItem)) (cancelAt : Option Nat)
    (fuel : Nat) (pageToken : String) : DriverOutput MediaItem :=
  drive fetch cancelAt fuel pageToken

/-- The media-items search pagination entry point; its loop is identical to
`List`, with the page request travelling as a JSON body instead of query
parameters. -/
def Search (fetch : String → Except String (Page MediaItem)) (cancelAt : Option Nat)
    (fuel : Nat) (pageToken : String) : DriverOutput MediaItem :=
  drive fetch cancelAt fuel pageToken

end mediaitems

/-!
Request Builder.  `albums.list` and `mediaitems.list` build the query string
with `strconv.Itoa` / `strconv.FormatBool`; `mediaitems.search` encodes the
whole request struct as a JSON body.  Decimal rendering of a natural number
is embedded directly (least-significant digit first, then reversed), matching
`strconv.Itoa` on non-negative input.
-/

/-- Decimal digits of `n`, least significant first. -/
def toDigitsRev (n : Nat) : List Nat :=
  if _h : n < 10 then [n] else n % 10 :: toDigitsRev (n / 10)
termination_by n
decreasing_by exact Nat.div_lt_self (by omega) (by omega)

/-- Value of a least-significant-first digit list. -/
def digitsVal : List Nat → Nat
  | [] => 0
  | d :: ds => d + 10 * digitsVal ds

/-- Decimal rendering of a natural number, as `strconv.Itoa` produces for
non-negative input. -/
def itoaN (n : Nat) : String :=
  ((toDigitsRev n).reverse.map Nat.digitChar).asString

/-- Decimal rendering of a Go `int` (`strconv.Itoa`). -/
def itoa (i : Int) : String :=
  if i < 0 then "-" ++ itoaN i.natAbs else itoaN i.toNat

/-- Parse a non-empty all-digit string back to a natural number, the inverse
direction of `itoaN` (`strconv.Atoi` restricted to unsigned input). -/
def atoiN (s : String) : Option Nat :=
  if s.toList.isEmpty then none
  else if s.toList.all Char.isDigit then
    some (s.toList.foldl (fun a c => a * 10 + (c.toNat - 48)) 0)
  else none

/-- Rendering of a Go `bool` by `strconv.FormatBool`. -/
def formatBool (b : Bool) : String := if b then "true" else "false"

/-- The GET-style list page request (`ListAlbumsRequest` and the identically
shaped `ListMediaItemsRequest`). -/
structure ListAlbumsRequest where
  PageSize : Int
  PageToken : String
  ExcludeNonAppCreatedData : Bool
deriving Repr, DecidableEq

/-- The query parameters `albums.list` / `mediaitems.list` add to the URL, in
`urlValues.Add` order: `pageSize` only when positive, `pageToken` only when
non-empty, and `excludeNonAppCreatedData` unconditionally via
`strconv.FormatBool` (`url.Values.Encode` then sorts keys, which does not
change which keys are present or their values). -/
def listQueryValues (r : ListAlbumsRequest) : List (String × String) :=
  (if r.PageSize > 0 then [("pageSize", itoa r.PageSize)] else [])
    ++ (if r.PageToken ≠ "" then [("pageToken", r.PageToken)] else [])
    ++ [("excludeNonAppCreatedData", formatBool r.ExcludeNonAppCreatedData)]

/-- Modelled from the spec: the source has no decoder for its own list query
strings (the server consumes them), so this is the inverse decoder implied by
the round-trip property of §8 — read each known key back, defaulting a
missing key to the field's zero value. -/
def parseListQuery (q : List (String × String)) : ListAlbumsRequest where
  PageSize :=
    match List.lookup "pageSize" q with
    | some s => Int.ofNat ((atoiN s).getD 0)
    | none => 0
  PageToken := (List.lookup "pageToken" q).getD ""
  ExcludeNonAppCreatedData :=
    match List.lookup "excludeNonAppCreatedData" q with
    | some s => s == "true"
    | none => false

/-- The (currently field-less) search filter struct. -/
structure Filters where
deriving Repr, DecidableEq

/-- The search page request (`SearchMediaItemRequest`). -/
structure SearchMediaItemRequest where
  AlbumID : String
  PageSize : Int
  PageToken : String
  filters : Filters
  OrderBy : String
deriving Repr, DecidableEq

/-- JSON values as far as the search request body needs them. -/
inductive JsonValue where
  | str (s : String)
  | num (n : Int)
  | obj (fields : List (String × JsonValue))
deriving Repr

/-- The JSON object body `mediaitems.search` sends, per `encoding/json` on
`SearchMediaItemRequest`: `albumId`, `pageSize` and `orderBy` are omitted at
their zero values (`omitempty`); the `PageToken` struct tag is malformed (its
closing quote is missing), so `encoding/json` ignores the tag and serializes
the field under its Go name `PageToken` with no `omitempty`; `filters` is a
field-less struct, which `omitempty` never treats as empty. -/
def encodeSearchBody (r : SearchMediaItemRequest) : List (String × JsonValue) :=
  (if r.AlbumID ≠ "" then [("albumId", JsonValue.str r.AlbumID)] else [])
    ++ (if r.PageSize ≠ 0 then [("pageSize", JsonValue.num r.PageSize)] else [])
    ++ [("PageToken", JsonValue.str r.PageToken)]
    ++ [("filters", JsonValue.obj [])]
    ++ (if r.OrderBy ≠ "" then [("orderBy", JsonValue.str r.OrderBy)] else [])

/-- String field read-back of a JSON object, defaulting to the zero value. -/
def getStr (b : List (String × JsonValue)) (k : String) : String :=
  match List.lookup k b with
  | some (JsonValue.str s) => s
  | _ => ""

/-- Integer field read-back of a JSON object, defaulting to the zero value. -/
def getNum (b : List (String × JsonValue)) (k : String) : Int :=
  match List.lookup k b with
  | some (JsonValue.num n) => n
  | _ => 0

/-- Decoding a JSON object into `SearchMediaItemRequest`, per `encoding/json`
on this struct (as exercised by the test round tripper): each field is read
from its serialized key, missing keys keep the zero value. -/
def decodeSearchBody (b : List (String × JsonValue)) : SearchMediaItemRequest where
  AlbumID := getStr b "albumId"
  PageSize := getNum b "pageSize"
  PageToken := getStr b "PageToken"
  filters := ⟨⟩
  OrderBy := getStr b "orderBy"

/-!
Single-Page Fetcher tail.  After `client.Do` succeeds, `albums.list`,
`mediaitems.list` and `mediaitems.search` all run: decode the body as JSON
(returning on decode error), then `resp.Body.Close()` (returning its error if
any), then return the decoded response.  The transport result, the decoder
and the close outcome are parameters; `bodyClosed` records whether
`resp.Body.Close()` was reached.
-/

/-- Result of the post-transport part of a single-page fetch. -/
structure FetchEffects (α : Type u) where
  result : Except String α
  bodyClosed : Bool
deriving Repr

/-- The decode-then-close tail of the single-page fetchers.  The decode-error
branch returns before the `resp.Body.Close()` line is reached. -/
def decodeAndClose (transport : Except String β) (decode : β → Except String α)
    (closeResult : Option String) : FetchEffects α :=
  match transport with
  | .error e => { result := .error e, bodyClosed := false }
  | .ok body =>
    match decode body with
    | .error e => { result := .error e, bodyClosed := false }
    | .ok v =>
      match closeResult with
      | some e => { result := .error e, bodyClosed := true }
      | none => { result := .ok v, bodyClosed := true }

/-!
Login-flow redirect listener.  `listenAndServerRedirect` installs a handler
that reads the `state` query parameter and guards the code hand-off with
`if state != string(state)` — it compares the callback's own `state` value to
itself (the nonce generated in `NewClient` is never passed to the listener),
so the `401 invalid state` branch is unreachable.
-/

/-- What the redirect handler sends back to the browser and (via the code
channel) to the waiting `NewClient`. -/
structure RedirectReply where
  status : Nat
  body : String
  deliveredCode : Option String
deriving Repr, DecidableEq

/-- The redirect callback handler of `listenAndServerRedirect`, embedded with
its guard exactly as written in the source: `queryState ≠ queryState`. -/
def redirectHandler (queryState queryCode : String) : RedirectReply :=
  if queryState ≠ queryState then
    { status := 401, body := "invalid state", deliveredCode := none }
  else
    { status := 200, body := "Authenticated Successfully", deliveredCode := some queryCode }

/-!
Concrete transports used to instantiate the hypotheses of the pagination
theorems on small inputs.
-/

/-- A two-page transport: the first page carries items 1, 2 and token `x`;
the page at `x` carries item 3 and the empty token. -/
def twoPageFetch : String → Except String (Page Nat) :=
  fun tok =>
    if tok = "" then .ok ⟨[1, 2], "x"⟩
    else if tok = "x" then .ok ⟨[3], ""⟩
    else .error "no such page"

/-- A transport whose first page succeeds and whose second fetch fails. -/
def failSecondFetch : String → Except String (Page Nat) :=
  fun tok =>
    if tok = "" then .ok ⟨[1, 2], "x"⟩
    else .error "boom"

/-- A transport that always returns the same page with the same non-empty
token. -/
def constTokFetch : String → Except String (Page Nat) :=
  fun _ => .ok ⟨[7], "t"⟩


/-!
Basic lemmas about cancellation polling, emission, and chained page runs.
-/

theorem noCancelBelow_none (b : Nat) : noCancelBelow none b := by
  intro p h
  simp [ctxDone] at h

theorem noCancelBelow_mono {cancelAt : Option Nat} {b b' : Nat} (h : b' ≤ b)
    (hc : noCancelBelow cancelAt b) : noCancelBelow cancelAt b' :=
  fun p hp => le_trans h (hc p hp)

theorem ctxDone_eq_false {cancelAt : Option Nat} {b p : Nat}
    (hc : noCancelBelow cancelAt b) (hp : p < b) : ctxDone cancelAt p = false := by
  cases h : ctxDone cancelAt p
  · rfl
  · exact absurd (hc p h) (by omega)

theorem emitItems_nocancel (cancelAt : Option Nat) :
    ∀ (xs : List α) (polls : Nat), noCancelBelow cancelAt (polls + xs.length) →
      emitItems cancelAt polls xs = (xs.map Event.emit, polls + xs.length, false) := by
  intro xs
  induction xs with
  | nil => intro polls _; simp [emitItems]
  | cons x xs ih =>
    intro polls hc
    have hcd : ctxDone cancelAt polls = false :=
      ctxDone_eq_false hc (by simp)
    rw [emitItems, hcd]
    rw [ih (polls + 1) (by simpa [Nat.add_assoc, Nat.add_comm, Nat.add_left_comm] using hc)]
    simp [Nat.add_assoc, Nat.add_comm, Nat.add_left_comm]

theorem emitItems_cancel :
    ∀ (xs : List α) (polls M : Nat), M < xs.length →
      emitItems (some (polls + M)) polls xs = ((xs.take M).map Event.emit, polls + M, true) := by
  intro xs
  induction xs with
  | nil => intro polls M h; simp at h
  | cons x xs ih =>
    intro polls M h
    cases M with
    | zero => simp [emitItems, ctxDone]
    | succ m =>
      have hcd : ctxDone (some (polls + (m + 1))) polls = false := by
        simp [ctxDone]
      rw [emitItems, hcd]
      have := ih (polls + 1) m (by simp at h; omega)
      rw [show polls + 1 + m = polls + (m + 1) by omega] at this
      rw [this]
      simp

theorem driveLoop_chain (fetch : String → Except String (Page α)) (cancelAt : Option Nat)
    (pages : List (Page α)) :
    ∀ (tok : String) (polls fuel : Nat), servesPages fetch tok pages →
      noCancelBelow cancelAt (polls + pollCount pages) →
      driveLoop fetch cancelAt (pages.length + fuel) tok polls
        = (chainTrace tok pages
            ++ (driveLoop fetch cancelAt fuel (nextTok tok pages) (polls + pollCount pages)).1,
           (driveLoop fetch cancelAt fuel (nextTok tok pages) (polls + pollCount pages)).2) := by
  induction pages with
  | nil =>
    intro tok polls fuel _ _
    simp [chainTrace, nextTok, pollCount]
  | cons p rest ih =>
    intro tok polls fuel hs hc
    obtain ⟨hf, hne, hrest⟩ := hs
    have hcd : ctxDone cancelAt polls = false :=
      ctxDone_eq_false hc (by simp only [pollCount]; omega)
    have hemit := emitItems_nocancel cancelAt p.items (polls + 1)
      (noCancelBelow_mono (by simp only [pollCount]; omega) hc)
    have harith : polls + 1 + p.items.length + pollCount rest = polls + pollCount (p :: rest) := by
      simp only [pollCount]; omega
    have hrec := ih p.nextPageToken (polls + 1 + p.items.length) fuel hrest
      (by rw [harith]; exact hc)
    rw [harith] at hrec
    have h1 : (p :: rest).length + fuel = (rest.length + fuel) + 1 := by
      simp only [List.length_cons]; omega
    rw [h1, driveLoop]
    simp only [hcd, Bool.false_eq_true, if_false, hf, hemit, if_neg hne, hrec]
    simp [chainTrace, nextTok, List.append_assoc]

@[simp] theorem emittedItems_nil : emittedItems ([] : List (Event α)) = [] := rfl

@[simp] theorem emittedItems_cons_emit (x : α) (l : List (Event α)) :
    emittedItems (Event.emit x :: l) = x :: emittedItems l := rfl

@[simp] theorem emittedItems_cons_fetchPage (t : String) (l : List (Event α)) :
    emittedItems (Event.fetchPage t :: l) = emittedItems l := rfl

@[simp] theorem emittedItems_cons_errSend (l : List (Event α)) :
    emittedItems (Event.errSend :: l) = emittedItems l := rfl

@[simp] theorem emittedItems_cons_closeItems (l : List (Event α)) :
    emittedItems (Event.closeItems :: l) = emittedItems l := rfl

@[simp] theorem emittedItems_cons_closeErr (l : List (Event α)) :
    emittedItems (Event.closeErr :: l) = emittedItems l := rfl

@[simp] theorem emittedItems_append (l₁ l₂ : List (Event α)) :
    emittedItems (l₁ ++ l₂) = emittedItems l₁ ++ emittedItems l₂ := by
  simp [emittedItems]

@[simp] theorem emittedItems_map_emit (xs : List α) :
    emittedItems (xs.map Event.emit) = xs := by
  induction xs with
  | nil => rfl
  | cons x xs ih => simp [ih]

theorem emittedItems_chainTrace (pages : List (Page α)) :
    ∀ tok, emittedItems (chainTrace tok pages) = (pages.map Page.items).flatten := by
  induction pages with
  | nil => intro tok; rfl
  | cons p rest ih => intro tok; simp [chainTrace, ih]

@[simp] theorem countErrSends_nil : countErrSends ([] : List (Event α)) = 0 := rfl

@[simp] theorem countErrSends_cons_emit (x : α) (l : List (Event α)) :
    countErrSends (Event.emit x :: l) = countErrSends l := rfl

@[simp] theorem countErrSends_cons_fetchPage (t : String) (l : List (Event α)) :
    countErrSends (Event.fetchPage t :: l) = countErrSends l := rfl

@[simp] theorem countErrSends_cons_errSend (l : List (Event α)) :
    countErrSends (Event.errSend :: l) = countErrSends l + 1 := by
  simp [countErrSends, isErrSend, List.filter_cons]

@[simp] theorem countErrSends_cons_closeItems (l : List (Event α)) :
    countErrSends (Event.closeItems :: l) = countErrSends l := rfl

@[simp] theorem countErrSends_cons_closeErr (l : List (Event α)) :
    countErrSends (Event.closeErr :: l) = countErrSends l := rfl

@[simp] theorem countErrSends_append (l₁ l₂ : List (Event α)) :
    countErrSends (l₁ ++ l₂) = countErrSends l₁ + countErrSends l₂ := by
  simp [countErrSends]

@[simp] theorem countErrSends_map_emit (xs : List α) :
    countErrSends (xs.map Event.emit) = 0 := by
  induction xs with
  | nil => rfl
  | cons x xs ih => simp [ih]

theorem countErrSends_chainTrace (pages : List (Page α)) :
    ∀ tok, countErrSends (chainTrace tok pages) = 0 := by
  induction pages with
  | nil => intro tok; rfl
  | cons p rest ih => intro tok; simp [chainTrace, ih]

@[simp] theorem countFetches_nil : countFetches ([] : List (Event α)) = 0 := rfl

@[simp] theorem countFetches_cons_emit (x : α) (l : List (Event α)) :
    countFetches (Event.emit x :: l) = countFetches l := rfl

@[simp] theorem countFetches_cons_fetchPage (t : String) (l : List (Event α)) :
    countFetches (Event.fetchPage t :: l) = countFetches l + 1 := by
  simp [countFetches, isFetch, List.filter_cons]

@[simp] theorem countFetches_cons_errSend (l : List (Event α)) :
    countFetches (Event.errSend :: l) = countFetches l := rfl

@[simp] theorem countFetches_cons_closeItems (l : List (Event α)) :
    countFetches (Event.closeItems :: l) = countFetches l := rfl

@[simp] theorem countFetches_cons_closeErr (l : List (Event α)) :
    countFetches (Event.closeErr :: l) = countFetches l := rfl

@[simp] theorem countFetches_append (l₁ l₂ : List (Event α)) :
    countFetches (l₁ ++ l₂) = countFetches l₁ + countFetches l₂ := by
  simp [countFetches]

@[simp] theorem countFetches_map_emit (xs : List α) :
    countFetches (xs.map Event.emit) = 0 := by
  induction xs with
  | nil => rfl
  | cons x xs ih => simp [ih]

theorem countFetches_chainTrace (pages : List (Page α)) :
    ∀ tok, countFetches (chainTrace tok pages) = pages.length := by
  induction pages with
  | nil => intro tok; rfl
  | cons p rest ih => intro tok; simp [chainTrace, ih]

theorem chainTrace_append (pages qages : List (Page α)) :
    ∀ tok, chainTrace tok (pages ++ qages)
      = chainTrace tok pages ++ chainTrace (nextTok tok pages) qages := by
  induction pages with
  | nil => intro tok; simp [chainTrace, nextTok]
  | cons p rest ih => intro tok; simp [chainTrace, nextTok, ih]

theorem drive_eq_of_driveLoop {fetch : String → Except String (Page α)}
    {cancelAt : Option Nat} {fuel : Nat} {tok : String} {evs : List (Event α)} {t : Terminal}
    (h : driveLoop fetch cancelAt fuel tok 0 = (evs, t)) (ht : t ≠ Terminal.outOfFuel) :
    drive fetch cancelAt fuel tok = (evs ++ [Event.closeItems], t) := by
  rw [drive, h]
  cases t <;> simp at ht ⊢

theorem driveLoop_last_done (fetch : String → Except String (Page α))
    (cancelAt : Option Nat) (tok : String) (polls fuel : Nat) {p : Page α}
    (hf : fetch tok = .ok p) (he : p.nextPageToken = "")
    (hc : noCancelBelow cancelAt (polls + 1 + p.items.length)) :
    driveLoop fetch cancelAt (fuel + 1) tok polls
      = (Event.fetchPage tok :: p.items.map Event.emit, Terminal.done) := by
  have hcd : ctxDone cancelAt polls = false := ctxDone_eq_false hc (by omega)
  have hemit := emitItems_nocancel cancelAt p.items (polls + 1) hc
  rw [driveLoop]
  simp only [hcd, Bool.false_eq_true, if_false, hf, hemit, if_pos he]

theorem driveLoop_last_failed (fetch : String → Except String (Page α))
    (cancelAt : Option Nat) (tok : String) (polls fuel : Nat)
    (hf : isError (fetch tok) = true)
    (hcd : ctxDone cancelAt polls = false) :
    driveLoop fetch cancelAt (fuel + 1) tok polls
      = ([Event.fetchPage tok, Event.errSend], Terminal.failed) := by
  rw [driveLoop]
  cases h : fetch tok with
  | ok p => rw [h] at hf; simp [isError] at hf
  | error e => simp only [hcd, Bool.false_eq_true, if_false, h]

theorem driveLoop_last_cancelled (fetch : String → Except String (Page α))
    (tok : String) (polls fuel M : Nat) {p : Page α}
    (hf : fetch tok = .ok p) (hM : M < p.items.length) :
    driveLoop fetch (some (polls + 1 + M)) (fuel + 1) tok polls
      = (Event.fetchPage tok :: (p.items.take M).map Event.emit, Terminal.cancelled) := by
  have hcd : ctxDone (some (polls + 1 + M)) polls = false := by
    simp [ctxDone]; omega
  have hemit := emitItems_cancel p.items (polls + 1) M hM
  rw [driveLoop]
  simp only [hcd, Bool.false_eq_true, if_false, hf, hemit]

/-- C1: for every finite page sequence P1..Pn served by the transport (each
page but the last with a non-empty `next_page_token`, the last with the empty
token), the pagination driver emits exactly the concatenation of the pages'
items in server order — no duplicates, no omissions — and its trace is the
strict interleaving fetch P1, emit P1's items, fetch P2, ..., so page N+1 is
fetched only after every item of page N has been emitted; the run ends in the
`done` state with the item channel closed.  Here `pages` are P1..P(n-1) and
`lastP` is Pn. -/
theorem pagination_emits_concatenation
    (fetch : String → Except String (Page α)) (tok : String)
    (pages : List (Page α)) (lastP : Page α) (fuel : Nat)
    (hs : servesPages fetch tok pages)
    (hl : fetch (nextTok tok pages) = .ok lastP)
    (he : lastP.nextPageToken = "")
    (hfuel : pages.length + 1 ≤ fuel) :
    drive fetch none fuel tok
      = (chainTrace tok (pages ++ [lastP]) ++ [Event.closeItems], Terminal.done)
    ∧ emittedItems (drive fetch none fuel tok).1
      = ((pages ++ [lastP]).map Page.items).flatten := by
  obtain ⟨f, rfl⟩ : ∃ f, fuel = pages.length + (f + 1) :=
    ⟨fuel - pages.length - 1, by omega⟩
  have hchain := driveLoop_chain fetch none pages tok 0 (f + 1) hs (noCancelBelow_none _)
  have hlast := driveLoop_last_done fetch none (nextTok tok pages) (0 + pollCount pages) f
    hl he (noCancelBelow_none _)
  rw [hlast] at hchain
  have htrace : chainTrace tok (pages ++ [lastP])
      = chainTrace tok pages ++ Event.fetchPage (nextTok tok pages) :: lastP.items.map Event.emit := by
    simp [chainTrace_append, chainTrace]
  have hdrive := drive_eq_of_driveLoop hchain (by simp)
  constructor
  · rw [hdrive, htrace]
  · rw [hdrive]
    simp [emittedItems_chainTrace]

/-- Witness for C1 at the concrete two-page transport: pages `[1, 2]` (token
`x`) then `[3]` (empty token), fetched with ample fuel. -/
theorem pagination_emits_concatenation_witness :
    drive twoPageFetch none 5 ""
      = (chainTrace "" ([Page.mk [1, 2] "x"] ++ [Page.mk [3] ""]) ++ [Event.closeItems],
         Terminal.done)
    ∧ emittedItems (drive twoPageFetch none 5 "").1
      = (([Page.mk [1, 2] "x"] ++ [Page.mk ([3] : List Nat) ""]).map Page.items).flatten :=
  pagination_emits_concatenation twoPageFetch "" [Page.mk [1, 2] "x"] (Page.mk [3] "") 5
    (by constructor
        · rfl
        · constructor
          · decide
          · trivial)
    (by rfl) (by rfl) (by decide)

/-- C2: when the transport serves pages P1..P(K-1) and the Kth fetch fails
(and cancellation never fires), the driver emits exactly the items of pages
1..K-1, issues exactly K fetches (so no retry and no fetch after the failed
one — the trace ends with the error send followed by the item-channel close),
and delivers exactly one error.  Here `pages` are P1..P(K-1). -/
theorem failed_fetch_fail_fast
    (fetch : String → Except String (Page α)) (tok : String)
    (pages : List (Page α)) (fuel : Nat)
    (hs : servesPages fetch tok pages)
    (hfail : isError (fetch (nextTok tok pages)) = true)
    (hfuel : pages.length + 1 ≤ fuel) :
    drive fetch none fuel tok
      = (chainTrace tok pages ++ [Event.fetchPage (nextTok tok pages), Event.errSend,
          Event.closeItems], Terminal.failed)
    ∧ emittedItems (drive fetch none fuel tok).1 = (pages.map Page.items).flatten
    ∧ countErrSends (drive fetch none fuel tok).1 = 1
    ∧ countFetches (drive fetch none fuel tok).1 = pages.length + 1 := by
  obtain ⟨f, rfl⟩ : ∃ f, fuel = pages.length + (f + 1) :=
    ⟨fuel - pages.length - 1, by omega⟩
  have hchain := driveLoop_chain fetch none pages tok 0 (f + 1) hs (noCancelBelow_none _)
  have hlast := driveLoop_last_failed fetch none (nextTok tok pages) (0 + pollCount pages) f
    hfail (by simp [ctxDone])
  rw [hlast] at hchain
  have hdrive := drive_eq_of_driveLoop hchain (by simp)
  refine ⟨?_, ?_, ?_, ?_⟩
  · rw [hdrive]; simp
  · rw [hdrive]; simp [emittedItems_chainTrace]
  · rw [hdrive]; simp [countErrSends_chainTrace]
  · rw [hdrive]; simp [countFetches_chainTrace]

/-- Witness for C2: the first page `[1, 2]` succeeds and the second fetch
fails, so items 1, 2 are emitted, one error is sent, and two fetches occur. -/
theorem failed_fetch_fail_fast_witness :
    drive failSecondFetch none 7 ""
      = (chainTrace "" [Page.mk [1, 2] "x"] ++ [Event.fetchPage (nextTok "" [Page.mk [1, 2] "x"]),
          Event.errSend, Event.closeItems], Terminal.failed)
    ∧ emittedItems (drive failSecondFetch none 7 "").1
      = ([Page.mk ([1, 2] : List Nat) "x"].map Page.items).flatten
    ∧ countErrSends (drive failSecondFetch none 7 "").1 = 1
    ∧ countFetches (drive failSecondFetch none 7 "").1 = [Page.mk ([1, 2] : List Nat) "x"].length + 1 :=
  failed_fetch_fail_fast failSecondFetch "" [Page.mk [1, 2] "x"] 7
    (by exact ⟨rfl, by decide, trivial⟩) (by rfl) (by decide)

@[simp] theorem emittedItems_take_map_emit (M : Nat) (xs : List α) :
    emittedItems (List.take M (xs.map Event.emit)) = xs.take M := by
  induction xs generalizing M with
  | nil => simp
  | cons x xs ih =>
    cases M with
    | zero => simp
    | succ m => simp [ih]

@[simp] theorem countErrSends_take_map_emit (M : Nat) (xs : List α) :
    countErrSends (List.take M (xs.map Event.emit)) = 0 := by
  induction xs generalizing M with
  | nil => simp
  | cons x xs ih =>
    cases M with
    | zero => simp
    | succ m => simp [ih]

@[simp] theorem countFetches_take_map_emit (M : Nat) (xs : List α) :
    countFetches (List.take M (xs.map Event.emit)) = 0 := by
  induction xs generalizing M with
  | nil => simp
  | cons x xs ih =>
    cases M with
    | zero => simp
    | succ m => simp [ih]

/-- C3: when the transport serves pages P1..P(j-1) fully and page Pj, and
the cancellation signal first fires at the poll guarding item M+1 of page Pj
(with M < |Pj|), the driver emits exactly M items of that page after the
items of the earlier pages, delivers no error, and issues no fetch after
cancellation is observed: the fetch count stays at j and the trace ends with
the item-channel close.  Here `pages` are P1..P(j-1) and `p` is Pj. -/
theorem cancellation_mid_page
    (fetch : String → Except String (Page α)) (tok : String)
    (pages : List (Page α)) (p : Page α) (M fuel : Nat)
    (hs : servesPages fetch tok pages)
    (hp : fetch (nextTok tok pages) = .ok p)
    (hM : M < p.items.length)
    (hfuel : pages.length + 1 ≤ fuel) :
    drive fetch (some (pollCount pages + 1 + M)) fuel tok
      = (chainTrace tok pages ++ Event.fetchPage (nextTok tok pages)
          :: (p.items.take M).map Event.emit ++ [Event.closeItems], Terminal.cancelled)
    ∧ emittedItems (drive fetch (some (pollCount pages + 1 + M)) fuel tok).1
      = (pages.map Page.items).flatten ++ p.items.take M
    ∧ countErrSends (drive fetch (some (pollCount pages + 1 + M)) fuel tok).1 = 0
    ∧ countFetches (drive fetch (some (pollCount pages + 1 + M)) fuel tok).1
      = pages.length + 1 := by
  obtain ⟨f, rfl⟩ : ∃ f, fuel = pages.length + (f + 1) :=
    ⟨fuel - pages.length - 1, by omega⟩
  have hnc : noCancelBelow (some (pollCount pages + 1 + M)) (0 + pollCount pages) := by
    intro q hq
    simp [ctxDone] at hq
    omega
  have hchain := driveLoop_chain fetch (some (pollCount pages + 1 + M)) pages tok 0 (f + 1)
    hs hnc
  have hlast := driveLoop_last_cancelled fetch (nextTok tok pages) (0 + pollCount pages) f M
    hp hM
  rw [show 0 + pollCount pages + 1 + M = pollCount pages + 1 + M by omega] at hlast
  rw [hlast] at hchain
  have hdrive := drive_eq_of_driveLoop hchain (by simp)
  refine ⟨?_, ?_, ?_, ?_⟩
  · rw [hdrive]
  · rw [hdrive]; simp [emittedItems_chainTrace]
  · rw [hdrive]; simp [countErrSends_chainTrace]
  · rw [hdrive]; simp [countFetches_chainTrace]

/-- Witness for C3: cancellation fires at the poll before the second item of
the first page `[1, 2]`, so exactly one item is emitted, no error is sent,
and exactly one fetch occurs. -/
theorem cancellation_mid_page_witness :
    drive twoPageFetch (some (pollCount ([] : List (Page Nat)) + 1 + 1)) 4 ""
      = (chainTrace "" ([] : List (Page Nat)) ++ Event.fetchPage (nextTok "" ([] : List (Page Nat)))
          :: ((Page.mk ([1, 2] : List Nat) "x").items.take 1).map Event.emit
          ++ [Event.closeItems], Terminal.cancelled)
    ∧ emittedItems (drive twoPageFetch (some (pollCount ([] : List (Page Nat)) + 1 + 1)) 4 "").1
      = ((([] : List (Page Nat))).map Page.items).flatten
          ++ (Page.mk ([1, 2] : List Nat) "x").items.take 1
    ∧ countErrSends (drive twoPageFetch (some (pollCount ([] : List (Page Nat)) + 1 + 1)) 4 "").1 = 0
    ∧ countFetches (drive twoPageFetch (some (pollCount ([] : List (Page Nat)) + 1 + 1)) 4 "").1
      = ([] : List (Page Nat)).length + 1 :=
  cancellation_mid_page twoPageFetch "" [] (Page.mk [1, 2] "x") 1 4
    trivial (by rfl) (by decide) (by decide)

theorem emitItems_shape (cancelAt : Option Nat) :
    ∀ (xs : List α) (polls : Nat),
      ∃ k, (emitItems cancelAt polls xs).1 = (xs.take k).map Event.emit := by
  intro xs
  induction xs with
  | nil => intro polls; exact ⟨0, rfl⟩
  | cons x xs ih =>
    intro polls
    cases hcd : ctxDone cancelAt polls with
    | true => exact ⟨0, by rw [emitItems, hcd]; simp⟩
    | false =>
      obtain ⟨k, hk⟩ := ih (polls + 1)
      refine ⟨k + 1, ?_⟩
      rw [emitItems, hcd]
      simp only [Bool.false_eq_true, if_false]
      rcases hm : emitItems cancelAt (polls + 1) xs with ⟨evs, polls2, c⟩
      rw [hm] at hk
      simp at hk
      simp [hk]

theorem drive_snd (fetch : String → Except String (Page α)) (cancelAt : Option Nat)
    (fuel : Nat) (tok : String) :
    (drive fetch cancelAt fuel tok).2 = (driveLoop fetch cancelAt fuel tok 0).2 := by
  rw [drive]
  rcases h : driveLoop fetch cancelAt fuel tok 0 with ⟨evs, t⟩
  cases t <;> simp

theorem driveLoop_failed_shape (fetch : String → Except String (Page α)) (cancelAt : Option Nat) :
    ∀ (fuel : Nat) (tok : String) (polls : Nat),
      ((driveLoop fetch cancelAt fuel tok polls).2 = Terminal.failed →
        ∃ pre, (driveLoop fetch cancelAt fuel tok polls).1 = pre ++ [Event.errSend]
          ∧ countErrSends pre = 0)
      ∧ ((driveLoop fetch cancelAt fuel tok polls).2 ≠ Terminal.failed →
        countErrSends (driveLoop fetch cancelAt fuel tok polls).1 = 0) := by
  intro fuel
  induction fuel with
  | zero =>
    intro tok polls
    constructor
    · intro h; simp [driveLoop] at h
    · intro _; simp [driveLoop]
  | succ fuel ih =>
    intro tok polls
    rw [driveLoop]
    cases hcd : ctxDone cancelAt polls with
    | true => simp
    | false =>
      simp only [Bool.false_eq_true, if_false]
      cases hf : fetch tok with
      | error e =>
        constructor
        · intro _; exact ⟨[Event.fetchPage tok], rfl, rfl⟩
        · intro hne; exact absurd rfl hne
      | ok page =>
        obtain ⟨k, hk⟩ := emitItems_shape cancelAt page.items (polls + 1)
        rcases hm : emitItems cancelAt (polls + 1) page.items with ⟨evs, polls2, c⟩
        rw [hm] at hk
        simp at hk
        subst hk
        simp only [hm]
        cases c with
        | true => simp
        | false =>
          by_cases hne : page.nextPageToken = ""
          · simp [hne]
          · simp only [if_neg hne]
            obtain ⟨ih1, ih2⟩ := ih page.nextPageToken polls2
            constructor
            · intro h
              obtain ⟨pre, hpre, hcnt⟩ := ih1 h
              refine ⟨Event.fetchPage tok :: (List.take k (page.items.map Event.emit) ++ pre),
                ?_, ?_⟩
              · simp [hpre, List.append_assoc]
              · simp [hcnt]
            · intro h
              simp at h ⊢
              exact ih2 h

/-- C8: every run that ends in the `failed` state delivers its single error
on the error channel strictly before the item channel is closed: the trace is
some error-free events, then the completed error send, then the item-channel
close (the Go send on the unbuffered `errCh` completes before `return`
triggers the deferred `close`). -/
theorem error_delivered_before_close
    (fetch : String → Except String (Page α)) (cancelAt : Option Nat)
    (fuel : Nat) (tok : String)
    (h : (drive fetch cancelAt fuel tok).2 = Terminal.failed) :
    ∃ pre, (drive fetch cancelAt fuel tok).1 = pre ++ [Event.errSend, Event.closeItems]
      ∧ countErrSends pre = 0 := by
  have hloop2 : (driveLoop fetch cancelAt fuel tok 0).2 = Terminal.failed :=
    (drive_snd fetch cancelAt fuel tok).symm.trans h
  obtain ⟨pre, hpre, hcnt⟩ := (driveLoop_failed_shape fetch cancelAt fuel tok 0).1 hloop2
  have hfull : driveLoop fetch cancelAt fuel tok 0 = (pre ++ [Event.errSend], Terminal.failed) := by
    rcases hE : driveLoop fetch cancelAt fuel tok 0 with ⟨evs, t⟩
    rw [hE] at hpre hloop2
    simp at hpre hloop2
    rw [hpre, hloop2]
  have hdrive := drive_eq_of_driveLoop hfull (by simp)
  exact ⟨pre, by rw [hdrive]; simp, hcnt⟩

/-- Witness for C8: a run whose very first fetch fails (token `x` is not
served by `failSecondFetch`). -/
theorem error_delivered_before_close_witness :
    ∃ pre, (drive failSecondFetch none 3 "x").1 = pre ++ [Event.errSend, Event.closeItems]
      ∧ countErrSends pre = 0 :=
  error_delivered_before_close failSecondFetch none 3 "x" (by decide)

theorem driveLoop_forever (fetch : String → Except String (Page α))
    (h : ∀ t, okNonEmpty (fetch t) = true) :
    ∀ (fuel : Nat) (tok : String) (polls : Nat),
      (driveLoop fetch none fuel tok polls).2 = Terminal.outOfFuel
      ∧ countFetches (driveLoop fetch none fuel tok polls).1 = fuel := by
  intro fuel
  induction fuel with
  | zero => intro tok polls; simp [driveLoop]
  | succ fuel ih =>
    intro tok polls
    rw [driveLoop]
    cases hf : fetch tok with
    | error e => have := h tok; rw [hf] at this; simp [okNonEmpty] at this
    | ok page =>
      have hne : page.nextPageToken ≠ "" := by
        have := h tok; rw [hf] at this; simpa [okNonEmpty] using this
      have hemit := emitItems_nocancel none page.items (polls + 1)
        (noCancelBelow_none _)
      simp only [ctxDone, Bool.false_eq_true, if_false, hemit, if_neg hne]
      obtain ⟨ih1, ih2⟩ := ih page.nextPageToken (polls + 1 + page.items.length)
      simp [ih1, ih2]

/-- C7: the pagination loop has no repeated-token detection: whenever every
fetch succeeds and always returns a non-empty `next_page_token` (as a server
that repeats the same token forever does), the driver never reaches any
terminal state — for every fuel bound it is still running (`outOfFuel`) and
has issued one fetch per loop iteration.  Termination therefore requires an
empty token, a fetch error, or cancellation. -/
theorem pagination_no_token_cycle_guard
    (fetch : String → Except String (Page α))
    (h : ∀ t, okNonEmpty (fetch t) = true) :
    ∀ (fuel : Nat) (tok : String),
      (drive fetch none fuel tok).2 = Terminal.outOfFuel
      ∧ countFetches (drive fetch none fuel tok).1 = fuel := by
  intro fuel tok
  obtain ⟨h2, hcount⟩ := driveLoop_forever fetch h fuel tok 0
  have hfull : driveLoop fetch none fuel tok 0
      = ((driveLoop fetch none fuel tok 0).1, Terminal.outOfFuel) := by
    rw [← h2]
  rw [drive]
  rw [hfull]
  exact ⟨rfl, hcount⟩

/-- Witness for C7 at the constant-token transport: after 6 units of fuel the
run is still going and has fetched 6 times. -/
theorem pagination_no_token_cycle_guard_witness :
    (drive constTokFetch none 6 "").2 = Terminal.outOfFuel
    ∧ countFetches (drive constTokFetch none 6 "").1 = 6 :=
  pagination_no_token_cycle_guard constTokFetch (fun _ => rfl) 6 ""

theorem driveLoop_no_closeErr (fetch : String → Except String (Page α))
    (cancelAt : Option Nat) :
    ∀ (fuel : Nat) (tok : String) (polls : Nat),
      Event.closeErr ∉ (driveLoop fetch cancelAt fuel tok polls).1 := by
  intro fuel
  induction fuel with
  | zero => intro tok polls; simp [driveLoop]
  | succ fuel ih =>
    intro tok polls
    rw [driveLoop]
    cases hcd : ctxDone cancelAt polls with
    | true => simp
    | false =>
      simp only [Bool.false_eq_true, if_false]
      cases hf : fetch tok with
      | error e => simp
      | ok page =>
        obtain ⟨k, hk⟩ := emitItems_shape cancelAt page.items (polls + 1)
        rcases hm : emitItems cancelAt (polls + 1) page.items with ⟨evs, polls2, c⟩
        rw [hm] at hk
        simp at hk
        subst hk
        simp only [hm]
        have hnotin : Event.closeErr ∉ List.take k (page.items.map Event.emit) := by
          intro hmem
          have := List.mem_of_mem_take hmem
          simp at this
        cases c with
        | true => simpa using hnotin
        | false =>
          by_cases hne : page.nextPageToken = ""
          · simp only [if_pos hne]
            simpa using hnotin
          · simp only [if_neg hne]
            have hrec := ih page.nextPageToken polls2
            simp [hnotin, hrec]

/-- C10: no pagination run ever closes the error channel: whatever the
transport, the cancellation schedule, the fuel and the initial token, the
trace of `drive` (and hence of `albums.List`, `mediaitems.List` and
`mediaitems.Search`, which are its instances) contains no error-channel
close event, so a receive on the error channel after the item channel closes
never observes closure. -/
theorem error_channel_never_closed
    (fetch : String → Except String (Page α)) (cancelAt : Option Nat)
    (fuel : Nat) (tok : String) :
    Event.closeErr ∉ (drive fetch cancelAt fuel tok).1 := by
  have hl := driveLoop_no_closeErr fetch cancelAt fuel tok 0
  rw [drive]
  rcases hE : driveLoop fetch cancelAt fuel tok 0 with ⟨evs, t⟩
  rw [hE] at hl
  simp at hl
  cases t <;> simp [hl]

/-- C5 counterexample: with a successful transport whose body fails JSON
decoding, the single-page fetch returns without reaching `resp.Body.Close()`
— the body is not closed, contradicting the claim that it is released
regardless of decode outcome. -/
theorem body_not_closed_on_decode_error :
    (decodeAndClose (Except.ok "not json")
      (fun _ => (Except.error "invalid json" : Except String (Page Nat)))
      (none : Option String)).bodyClosed = false
    ∧ isError (decodeAndClose (Except.ok "not json")
      (fun _ => (Except.error "invalid json" : Except String (Page Nat)))
      (none : Option String)).result = true := by
  constructor <;> rfl

/-- C5 amended: on a successful transport result, the body is closed exactly
when JSON decoding succeeds; on a decode error (and on a transport error) the
fetch returns with the body unclosed. -/
theorem body_close_iff_decode_ok (body : β) (e : String)
    (decode : β → Except String α) (closeResult : Option String) :
    (decodeAndClose (Except.ok body) decode closeResult).bodyClosed = isOk (decode body)
    ∧ (decodeAndClose (Except.error e) decode closeResult).bodyClosed = false := by
  constructor
  · cases h : decode body with
    | error e2 => simp [decodeAndClose, h, isOk]
    | ok v => cases closeResult <;> simp [decodeAndClose, h, isOk]
  · rfl

/-- C6: the redirect handler accepts every callback regardless of its `state`
value — the guard compares the callback's `state` to itself, so it responds
HTTP 200 and delivers the authorization code even when `state` differs from
the nonce generated in `NewClient`; the 401 branch is unreachable.  In
particular the concrete mismatched callback below is accepted. -/
theorem redirect_handler_accepts_any_state :
    (∀ queryState queryCode, redirectHandler queryState queryCode
      = { status := 200, body := "Authenticated Successfully",
          deliveredCode := some queryCode })
    ∧ redirectHandler "state-differing-from-nonce" "12345"
      = { status := 200, body := "Authenticated Successfully",
          deliveredCode := some "12345" } := by
  constructor
  · intro queryState queryCode
    simp [redirectHandler]
  · rfl

/-- C4 counterexample: the all-default list request serializes the query
parameter `excludeNonAppCreatedData=false` — the zero value of the Boolean
field is sent explicitly, not omitted. -/
theorem excludeNonAppCreatedData_always_sent :
    listQueryValues { PageSize := 0, PageToken := "", ExcludeNonAppCreatedData := false }
      = [("excludeNonAppCreatedData", "false")]
    ∧ (List.lookup "excludeNonAppCreatedData"
        (listQueryValues { PageSize := 0, PageToken := "", ExcludeNonAppCreatedData := false }))
      = some "false" := by
  constructor <;> rfl

/-- C4 amended: `pageSize` appears in the query exactly when positive and
`pageToken` exactly when non-empty (their zero values are omitted), but
`excludeNonAppCreatedData` is always serialized via `strconv.FormatBool`,
including the explicit value `false`. -/
theorem list_query_omission_rule (r : ListAlbumsRequest) :
    (List.lookup "pageSize" (listQueryValues r)
      = if r.PageSize > 0 then some (itoa r.PageSize) else none)
    ∧ (List.lookup "pageToken" (listQueryValues r)
      = if r.PageToken ≠ "" then some r.PageToken else none)
    ∧ List.lookup "excludeNonAppCreatedData" (listQueryValues r)
      = some (formatBool r.ExcludeNonAppCreatedData) := by
  by_cases hs : r.PageSize > 0 <;> by_cases ht : r.PageToken ≠ "" <;>
    simp [listQueryValues, List.lookup, hs, ht]

theorem toDigitsRev_ne_nil (n : Nat) : toDigitsRev n ≠ [] := by
  rw [toDigitsRev]
  split <;> simp

theorem toDigitsRev_lt_ten (n : Nat) : ∀ d ∈ toDigitsRev n, d < 10 := by
  induction n using Nat.strong_induction_on with
  | _ n ih =>
    rw [toDigitsRev]
    split
    · next h => intro d hd; simp at hd; omega
    · next h =>
      intro d hd
      simp at hd
      rcases hd with hd | hd
      · omega
      · exact ih (n / 10) (Nat.div_lt_self (by omega) (by omega)) d hd

theorem digitsVal_toDigitsRev (n : Nat) : digitsVal (toDigitsRev n) = n := by
  induction n using Nat.strong_induction_on with
  | _ n ih =>
    rw [toDigitsRev]
    split
    · simp [digitsVal]
    · next h =>
      simp [digitsVal, ih (n / 10) (Nat.div_lt_self (by omega) (by omega))]
      omega

theorem foldl_horner (L : List Nat) :
    L.reverse.foldl (fun a d => a * 10 + d) 0 = digitsVal L := by
  induction L with
  | nil => rfl
  | cons d L ih =>
    simp [List.reverse_cons, List.foldl_append, digitsVal, ih]
    omega

theorem digitChar_facts :
    ∀ d, d < 10 → (Nat.digitChar d).isDigit = true ∧ (Nat.digitChar d).toNat - 48 = d := by
  decide

theorem foldl_digitChar (L : List Nat) (h : ∀ d ∈ L, d < 10) :
    ∀ a, L.foldl (fun acc d => acc * 10 + ((Nat.digitChar d).toNat - 48)) a
      = L.foldl (fun acc d => acc * 10 + d) a := by
  induction L with
  | nil => intro a; rfl
  | cons d L ih =>
    intro a
    have hd : (Nat.digitChar d).toNat - 48 = d := (digitChar_facts d (h d (by simp))).2
    simp only [List.foldl_cons, hd]
    exact ih (fun x hx => h x (by simp [hx])) _

theorem atoiN_itoaN (n : Nat) : atoiN (itoaN n) = some n := by
  have hne : toDigitsRev n ≠ [] := toDigitsRev_ne_nil n
  have hlt := toDigitsRev_lt_ten n
  have htl : (itoaN n).toList = ((toDigitsRev n).reverse.map Nat.digitChar) := rfl
  rw [atoiN, htl]
  rw [if_neg (by simp [hne]), if_pos ?hdig]
  case hdig =>
    simp only [List.all_eq_true]
    intro c hc
    rw [List.mem_map] at hc
    obtain ⟨d, hd, rfl⟩ := hc
    exact (digitChar_facts d (hlt d (List.mem_reverse.mp hd))).1
  congr 1
  rw [List.foldl_map]
  rw [foldl_digitChar _ (fun d hd => hlt d (List.mem_reverse.mp hd))]
  rw [foldl_horner, digitsVal_toDigitsRev]

theorem parse_itoa_pos (i : Int) (h : 0 < i) :
    Int.ofNat ((atoiN (itoa i)).getD 0) = i := by
  rw [itoa, if_neg (by omega), atoiN_itoaN]
  simpa using Int.toNat_of_nonneg h.le

theorem formatBool_roundtrip (b : Bool) : (formatBool b == "true") = b := by
  cases b <;> rfl

theorem listQuery_roundtrip (r : ListAlbumsRequest) (h : 0 ≤ r.PageSize) :
    parseListQuery (listQueryValues r) = r := by
  rcases r with ⟨ps, pt, ex⟩
  simp only at h
  rcases lt_or_eq_of_le h with hs | hs
  · have hp := parse_itoa_pos ps hs
    by_cases ht : pt = "" <;>
      simp [parseListQuery, listQueryValues, List.lookup, hs, ht, formatBool_roundtrip] <;>
      exact_mod_cast hp
  · subst hs
    by_cases ht : pt = "" <;>
      simp [parseListQuery, listQueryValues, List.lookup, ht, formatBool_roundtrip]

theorem searchBody_roundtrip (s : SearchMediaItemRequest) :
    decodeSearchBody (encodeSearchBody s) = s := by
  rcases s with ⟨aid, ps, pt, fl, ob⟩
  cases fl
  by_cases h1 : aid = "" <;> by_cases h2 : ps = 0 <;> by_cases h3 : ob = "" <;>
    simp [encodeSearchBody, decodeSearchBody, getStr, getNum, List.lookup, h1, h2, h3]

/-- C9: the Request Builder round-trips.  For the GET-style list request,
serializing to the query string and parsing back recovers every field of a
request whose page size is non-negative (the zero values are omitted and
parse back as the defaults, and `excludeNonAppCreatedData` is carried
explicitly).  For the search request, serializing the JSON body per the
struct tags (with the malformed `PageToken` tag falling back to the Go field
name) and decoding it back recovers every field of every request. -/
theorem request_roundtrip (r : ListAlbumsRequest) (h : 0 ≤ r.PageSize) :
    parseListQuery (listQueryValues r) = r
    ∧ ∀ s : SearchMediaItemRequest, decodeSearchBody (encodeSearchBody s) = s :=
  ⟨listQuery_roundtrip r h, fun s => searchBody_roundtrip s⟩

/-- Witness for C9 at a concrete list request with every field non-default
(the search half is instantiated inside the applied theorem). -/
theorem request_roundtrip_witness :
    parseListQuery (listQueryValues
      { PageSize := 37, PageToken := "tok", ExcludeNonAppCreatedData := true })
      = { PageSize := 37, PageToken := "tok", ExcludeNonAppCreatedData := true }
    ∧ ∀ s : SearchMediaItemRequest, decodeSearchBody (encodeSearchBody s) = s :=
  request_roundtrip { PageSize := 37, PageToken := "tok", ExcludeNonAppCreatedData := true }
    (by decide)
